import Mathlib

/-!
Shallow embedding of src/src/RealTimeChart.js (the data normalization and
layout engine of the RealTimeChart repository).

Modelling conventions:
* JavaScript numbers are modelled as rationals (all arithmetic in the engine
  is exact on the inputs the claims quantify over; no NaN or Infinity can
  arise when the configured range satisfies minValue < maxValue).
* Math.round rounds half toward positive infinity: jsRound x = floor (x + 1/2).
* The expression in calculatePercent, Math.round(...) || 1, yields 1 exactly
  when the rounded value is 0 (NaN cannot arise for a non-degenerate range);
  jsOr1 models that fallback.
* The mutable chart object (this.options, this.settings, this.data) is the
  record ChartState, threaded explicitly through every function.
* filterValue, calculatePercent and recalculatePercents are mutually
  re-entrant in the source: an auto-expansion inside recalculatePercents can
  re-enter recalculatePercents. Each re-entry is triggered by a distinct
  stored sample whose defValue exceeds the freshly grown maxValue, so on any
  run that terminates in JavaScript the nesting depth is at most the number
  of stored samples plus one. The model therefore passes an explicit fuel
  that only decreases when recalculatePercents recurses, and addChartData
  supplies fuel = stored sample count + 2, which dominates the real depth on
  every terminating run. (With negative samples the JavaScript recursion can
  fail to terminate; there the model returns the fuel-exhausted state.)
* transformChartDataToPercent returns undefined for malformed input and
  addChartData pushes that result unconditionally, so a stored batch is
  Option (List (Option Sample)): none models undefined, and an element none
  inside a batch models an undefined array slot produced by a malformed
  array element.
-/

/-- JavaScript Math.round on a rational: round half toward positive infinity. -/
def jsRound (x : ℚ) : ℤ := ⌊x + 1/2⌋

/-- The `|| 1` fallback applied to the rounded percent: 0 becomes 1. -/
def jsOr1 (z : ℤ) : ℤ := if z = 0 then 1 else z

/-- A normalized sample as stored in this.data: value is the percent written by
calculatePercent, defValue the original raw input, id the optional user id. -/
structure Sample where
  value : ℚ
  defValue : ℚ
  id : Option ℚ
deriving DecidableEq, Repr

/-- A batch as pushed by addChartData: none models the undefined returned by
transformChartDataToPercent on malformed input; a none element inside a batch
models an undefined slot from a malformed array element. -/
abbrev JsBatch := Option (List (Option Sample))

/-- The mutable state of a RealTimeChart instance: the option fields read by
the normalizer (options.minValue, options.maxValue, options.calcMaxValue,
options.totalElement), the derived settings.valueDiff, and this.data. -/
structure ChartState where
  minValue : ℚ
  maxValue : ℚ
  valueDiff : ℚ
  calcMaxValue : Bool
  totalElement : ℕ
  data : List JsBatch
deriving DecidableEq, Repr

/-- calculateValueDiff: this.settings.valueDiff = maxValue - minValue. -/
def calculateValueDiff (s : ChartState) : ChartState :=
  {s with valueDiff := s.maxValue - s.minValue}

/-- The body of calculatePercent after filterValue has produced correctValue c:
Math.round((c - minValue) / valueDiff * 100) || 1, as a JavaScript number. -/
def percentFormula (mn diff : ℚ) (c : ℚ) : ℚ :=
  ((jsOr1 (jsRound ((c - mn) / diff * 100)) : ℤ) : ℚ)

/-- The pure clamp performed by filterValue when no auto-expansion fires:
values below minValue become minValue, values above maxValue become maxValue. -/
def clampRange (mn mx v : ℚ) : ℚ :=
  if v < mn then mn else if mx < v then mx else v

/-- calculatePercent restricted to the non-mutating paths of filterValue:
the percent of the clamped value under the given range. -/
def percentPure (mn mx diff v : ℚ) : ℚ :=
  percentFormula mn diff (clampRange mn mx v)

/-- In-place update of the element at an index (identity when out of range);
models a JavaScript array element assignment. -/
def modifyIdx : List α → ℕ → (α → α) → List α
  | [], _, _ => []
  | a :: t, 0, f => f a :: t
  | a :: t, n+1, f => a :: modifyIdx t n f

/-- The write data[i][j].value = p performed inside recalculatePercents. -/
def setSample (d : List JsBatch) (i j : ℕ) (p : ℚ) : List JsBatch :=
  modifyIdx d i (Option.map fun b =>
    modifyIdx b j (Option.map fun smp => {smp with value := p}))

/-- The (batch index, sample index, defValue) triples of one batch, in
traversal order, starting at sample index j. -/
def sampleGrid : ℕ → ℕ → List (Option Sample) → List (ℕ × ℕ × ℚ)
  | _, _, [] => []
  | i, j, none :: t => sampleGrid i (j+1) t
  | i, j, some smp :: t => (i, j, smp.defValue) :: sampleGrid i (j+1) t

/-- The traversal grid of the window starting at batch index i. -/
def gridOfAux : ℕ → List JsBatch → List (ℕ × ℕ × ℚ)
  | _, [] => []
  | i, none :: t => gridOfAux (i+1) t
  | i, some b :: t => sampleGrid i 0 b ++ gridOfAux (i+1) t

/-- The positions and defValues recalculatePercents traverses, in the order
this.data.map visits them. (On a window containing an undefined batch or an
undefined sample the JavaScript traversal would throw; no claim reaches that
combination, and the model skips such slots.) -/
def gridOf (d : List JsBatch) : List (ℕ × ℕ × ℚ) := gridOfAux 0 d

/-- filterValue, parametric in the recalculation callback that the
auto-expansion branch invokes. Mirrors the source: a value below minValue is
replaced by minValue; a value above maxValue either grows maxValue to
value + value * 0.1, recomputes valueDiff, re-normalizes the whole window and
returns the unclamped value (calcMaxValue on), or is replaced by maxValue
(calcMaxValue off); anything else passes through. (Stage.printRuler is a
drawing side effect with no influence on the state modelled here.) -/
def filterValueAux (recalc : ChartState → ChartState) (s : ChartState) (v : ℚ) :
    ChartState × ℚ :=
  if v < s.minValue then (s, s.minValue)
  else if s.maxValue < v then
    if s.calcMaxValue then
      let s1 := calculateValueDiff {s with maxValue := v + v * (1/10)}
      (recalc s1, v)
    else (s, s.maxValue)
  else (s, v)

/-- calculatePercent, parametric in the recalculation callback: it first runs
filterValue, then reads this.options.minValue and this.settings.valueDiff of
the resulting state (they may have changed) and applies the percent formula. -/
def calculatePercentAux (recalc : ChartState → ChartState) (s : ChartState) (n : ℚ) :
    ChartState × ℚ :=
  let r := filterValueAux recalc s n
  (r.1, percentFormula r.1.minValue r.1.valueDiff r.2)

/-- One step of the recalculatePercents traversal at position t: the write
data[t.1][t.2.1].value = calculatePercent(defValue t.2.2), where the
calculatePercent call may itself mutate the state through R. -/
def recalcStep (R : ChartState → ChartState) (acc : ChartState) (t : ℕ × ℕ × ℚ) :
    ChartState :=
  let r := calculatePercentAux R acc t.2.2
  {r.1 with data := setSample r.1.data t.1 t.2.1 r.2}

/-- recalculatePercents: rewrites data[i][j].value to
calculatePercent(data[i][j].defValue) for every sample, in traversal order.
Each write lands in the shared window immediately (the source mutates the
sample objects in place), so a re-entrant recalculatePercents triggered by one
of these calculatePercent calls (fuel decremented once per nesting level)
operates on the partially rewritten window, exactly as the aliasing in the
source makes it do. -/
def recalculatePercents : ℕ → ChartState → ChartState
  | 0, s => s
  | f+1, s => (gridOf s.data).foldl (recalcStep (recalculatePercents f)) s

/-- filterValue of the source, with the fuel convention described above. -/
def filterValue (fuel : ℕ) (s : ChartState) (v : ℚ) : ChartState × ℚ :=
  filterValueAux (recalculatePercents fuel) s v

/-- calculatePercent of the source, with the fuel convention described above. -/
def calculatePercent (fuel : ℕ) (s : ChartState) (n : ℚ) : ChartState × ℚ :=
  calculatePercentAux (recalculatePercents fuel) s n

/-- An element of an array argument to addChartData: a number, an object with
a numeric value field (and optional id), or anything else (left as an
undefined slot by the array branch of transformChartDataToPercent). -/
inductive ArrElem where
  | num (v : ℚ)
  | obj (value : ℚ) (id : Option ℚ)
  | other
deriving DecidableEq, Repr

/-- A top-level argument to addChartData: a number, an object with a value
field, an array, or anything else (including an object whose value field is
falsy, which the source also fails to recognize: the typeof object branch
requires values.value to be truthy). A null argument, which would throw in
the source when values.value is dereferenced, is not modelled. -/
inductive ChartInput where
  | num (v : ℚ)
  | obj (value : ℚ) (id : Option ℚ)
  | arr (elems : List ArrElem)
  | other
deriving DecidableEq, Repr

/-- The array branch of transformChartDataToPercent: values.map, threading the
chart state left to right. An object element is given defValue := its old
value and value := calculatePercent(old value); a number element becomes a
fresh object the same way; any other element maps to undefined. -/
def transformArray (fuel : ℕ) (s : ChartState) :
    List ArrElem → ChartState × List (Option Sample)
  | [] => (s, [])
  | .num v :: rest =>
    let r := calculatePercent fuel s v
    let rr := transformArray fuel r.1 rest
    (rr.1, some ⟨r.2, v, none⟩ :: rr.2)
  | .obj v id :: rest =>
    let r := calculatePercent fuel s v
    let rr := transformArray fuel r.1 rest
    (rr.1, some ⟨r.2, v, id⟩ :: rr.2)
  | .other :: rest =>
    let rr := transformArray fuel s rest
    (rr.1, none :: rr.2)

/-- transformChartDataToPercent: a number is wrapped as [{value}], an object
with a truthy value field as [object], an array is mapped elementwise, and
every other input returns undefined (none). -/
def transformChartDataToPercent (fuel : ℕ) (s : ChartState) :
    ChartInput → ChartState × JsBatch
  | .num v =>
    let r := transformArray fuel s [.obj v none]
    (r.1, some r.2)
  | .obj v id =>
    if v ≠ 0 then
      let r := transformArray fuel s [.obj v id]
      (r.1, some r.2)
    else (s, none)
  | .arr l =>
    let r := transformArray fuel s l
    (r.1, some r.2)
  | .other => (s, none)

/-- Number of stored samples (used only to size the fuel). -/
def totalSamples (d : List JsBatch) : ℕ :=
  (d.map (fun ob => (ob.getD []).length)).sum

/-- Fuel supplied to one addChartData call: dominates the re-entrancy depth of
recalculatePercents on every run that terminates in JavaScript. -/
def fuelOf (s : ChartState) : ℕ := totalSamples s.data + 2

/-- addChartData: push the transformed batch, then drop the head batch if the
window now exceeds options.totalElement. -/
def addChartData (s : ChartState) (input : ChartInput) : ChartState :=
  let r := transformChartDataToPercent (fuelOf s) s input
  let d := r.1.data ++ [r.2]
  if r.1.totalElement < d.length then {r.1 with data := d.drop 1}
  else {r.1 with data := d}

/-- The sample built from one array element when no expansion fires. -/
def pureElemSample (mn mx diff : ℚ) : ArrElem → Option Sample
  | .num v => some ⟨percentPure mn mx diff v, v, none⟩
  | .obj v id => some ⟨percentPure mn mx diff v, v, id⟩
  | .other => none

/-- The raw numeric values a transformArray call feeds to calculatePercent. -/
def rawsOfElem : ArrElem → Option ℚ
  | .num v => some v
  | .obj v _ => some v
  | .other => none

/-- The raw numeric values one addChartData argument feeds to
calculatePercent (an object with falsy value field and a malformed input feed
none at all). -/
def rawsOf : ChartInput → List ℚ
  | .num v => [v]
  | .obj v _ => if v ≠ 0 then [v] else []
  | .arr l => l.filterMap rawsOfElem
  | .other => []

/-- The batch transformChartDataToPercent returns when no expansion fires. -/
def pureBatch (mn mx diff : ℚ) : ChartInput → JsBatch
  | .num v => some [pureElemSample mn mx diff (.obj v none)]
  | .obj v id => if v ≠ 0 then some [pureElemSample mn mx diff (.obj v id)] else none
  | .arr l => some (l.map (pureElemSample mn mx diff))
  | .other => none

/-! ### The value = percent(defValue) invariant -/

/-- One stored slot satisfies the normalization invariant: its value equals
the percent of its defValue under the given range (an undefined slot has no
sample to check). -/
def sampleOK (mn mx diff : ℚ) (os : Option Sample) : Bool :=
  match os with
  | none => true
  | some smp => decide (smp.value = percentPure mn mx diff smp.defValue)

/-- Every sample of a stored batch satisfies the invariant. -/
def batchOK (mn mx diff : ℚ) (ob : JsBatch) : Bool :=
  (ob.getD []).all (sampleOK mn mx diff)

/-- Every sample in the window satisfies value = percent(defValue) under the
range currently in effect (percentPure is exactly what calculatePercent
returns on a state it does not mutate). -/
def windowOK (s : ChartState) : Bool :=
  s.data.all (batchOK s.minValue s.maxValue s.valueDiff)

/-- Fresh chart with range 0..100, auto-expansion enabled, capacity 50. -/
def c4State : ChartState :=
  { minValue := 0, maxValue := 100, valueDiff := 100,
    calcMaxValue := true, totalElement := 50, data := [] }

/-- c4State after the raw 200 has grown the range to 0..220. -/
def c4Exp : ChartState :=
  { minValue := 0, maxValue := 220, valueDiff := 220,
    calcMaxValue := true, totalElement := 50, data := [] }

/-! ### Auto-expansion without cascade: recalculatePercents is a value map -/

/-- Rewrite one sample from its defValue. -/
def updVal (w : ℚ → ℚ) (smp : Sample) : Sample := {smp with value := w smp.defValue}

/-- Rewrite every stored sample value from its defValue. -/
def mapData (w : ℚ → ℚ) (d : List JsBatch) : List JsBatch :=
  d.map (Option.map (List.map (Option.map (updVal w))))

/-- The spec scenario before the expansion: range 0..100, auto-expand on,
capacity 3, one stored batch holding raw 10 at percent 10. -/
def c2State : ChartState :=
  { minValue := 0, maxValue := 100, valueDiff := 100,
    calcMaxValue := true, totalElement := 3,
    data := [some [some ⟨10, 10, none⟩]] }

/-! ### calculateDefaults: the layout engine -/

/-- The configuration fields calculateDefaults reads. The legend option is
always present after the defaults merge (hasOwnProperty is true), so only its
length matters. -/
structure ChartOptions where
  width : ℚ
  height : ℚ
  totalElement : ℚ
  minValue : ℚ
  maxValue : ℚ
  showRuler : Bool
  legendLength : ℕ
  paddingRight : ℚ
  paddingBottom : ℚ
deriving DecidableEq, Repr

/-- this.settings as mutated by calculateDefaults. -/
structure ChartSettings where
  paddingBottom : ℚ
  paddingRight : ℚ
  borderWidth : ℚ
  boxInnerPadding : ℚ
  stageWidth : ℚ
  stageHeight : ℚ
  oneXSegment : ℚ
  oneYSegment : ℚ
  valueDiff : ℚ
deriving DecidableEq, Repr

/-- The settings object as the constructor initializes it. -/
def initialSettings : ChartSettings :=
  { paddingBottom := 0, paddingRight := 0, borderWidth := 2, boxInnerPadding := 2,
    stageWidth := 0, stageHeight := 0, oneXSegment := 0, oneYSegment := 0, valueDiff := 0 }

/-- calculateDefaults: assignments in source order. paddingBottom is set to
options.paddingBottom + 30 only when the legend is non-empty (no else branch:
otherwise the field keeps whatever it held, 0 from the constructor);
paddingRight likewise only when showRuler; then the stage sizes are derived
from the just-updated paddings and the per-segment sizes from them, and
calculateValueDiff fills valueDiff. -/
def calculateDefaults (o : ChartOptions) (st0 : ChartSettings) : ChartSettings :=
  let st1 := if 0 < o.legendLength then {st0 with paddingBottom := o.paddingBottom + 30} else st0
  let st2 := if o.showRuler then {st1 with paddingRight := o.paddingRight + 30} else st1
  let st3 := {st2 with borderWidth := 2, boxInnerPadding := 2}
  let st4 := {st3 with stageWidth := o.width - st3.borderWidth - st3.paddingRight - st3.boxInnerPadding}
  let st5 := {st4 with stageHeight := o.height - st4.borderWidth - st4.paddingBottom - st4.boxInnerPadding}
  let st6 := {st5 with oneXSegment := st5.stageWidth / o.totalElement}
  let st7 := {st6 with oneYSegment := st6.stageHeight / 100}
  {st7 with valueDiff := o.maxValue - o.minValue}

/-! ### Bar-mode drawing order: sortDesc and Array.prototype.sort

The source comparator returns a Boolean (a < b resp. a.value < b.value).
Per ECMAScript the comparator result is coerced with ToNumber, so it is 1
when a.value < b.value and 0 otherwise — never negative. Such a comparator is
not a consistent comparison function (cmp a b = 0 while cmp b a = 1 for
a.value > b.value), so the sort order is implementation-defined. Two
ES-conforming engine behaviours are modelled:
* timSortJS: the run detection of the ES2019-era TimSort (as in modern V8) —
  the leading run extends while cmp next prev is non-negative, which with
  this comparator always holds, so the whole array is one run and the sort
  returns it unchanged;
* insertionOldV8: the binary/linear insertion sort older engines used for
  short arrays — each element moves left past every neighbour y with
  cmp y x > 0, which with this comparator does produce a descending order.
Array.prototype.sort mutates the array in place, so whichever order the
engine produces is also the batch stored in the window after drawBar. -/

/-- sortDesc of the source on object samples, with the Boolean return value
coerced to a number as Array.prototype.sort does. (The typeof number branch
of the source applies only to arrays of raw numbers, which
transformChartDataToPercent never stores.) -/
def sortDesc (a b : Sample) : ℤ := if a.value < b.value then 1 else 0

/-- Maximal-run decomposition driven by the comparator: the current run
extends while cmp x prev is non-negative (TimSort run detection). -/
def ascRunsGo (cmp : α → α → ℤ) : α → List α → List α → List (List α)
  | _, run, [] => [run]
  | prev, run, x :: t =>
    if 0 ≤ cmp x prev then ascRunsGo cmp x (run ++ [x]) t
    else run :: ascRunsGo cmp x [x] t

/-- The runs of a list under TimSort run detection. -/
def ascRuns (cmp : α → α → ℤ) : List α → List (List α)
  | [] => []
  | x :: t => ascRunsGo cmp x [x] t

/-- Stable merge of two runs: an element of the right run overtakes only
elements it compares strictly before. -/
def mergeTS (cmp : α → α → ℤ) : List α → List α → List α
  | [], r => r
  | a :: as, [] => a :: as
  | a :: as, b :: bs =>
    if cmp b a < 0 then b :: mergeTS cmp (a :: as) bs
    else a :: mergeTS cmp as (b :: bs)
termination_by l r => l.length + r.length

/-- A TimSort-style engine sort: decompose into runs, merge them. -/
def timSortJS (cmp : α → α → ℤ) (l : List α) : List α :=
  (ascRuns cmp l).foldl (mergeTS cmp) []

/-- Insert x into the already processed prefix, scanning from the right and
moving past every y with cmp y x > 0 (old-V8 insertion sort). The Boolean
records whether x sank past the whole suffix inspected so far. -/
def insGo (cmp : α → α → ℤ) (x : α) : List α → Bool × List α
  | [] => (true, [x])
  | y :: t =>
    let r := insGo cmp x t
    if r.1 then
      (if 0 < cmp y x then (true, x :: y :: t) else (false, y :: r.2))
    else (false, y :: r.2)

/-- An insertion-sort engine sort (pre-TimSort V8 used this for short
arrays, and every drawn batch is short). -/
def insertionOldV8 (cmp : α → α → ℤ) (l : List α) : List α :=
  l.foldl (fun acc x => (insGo cmp x acc).2) []

/-- The draw instructions drawBar issues for one batch: one Bar.setOptions +
draw per sample of the sorted array, tagged (segmentKey, iterKey,
percent = value, id) in iteration order. -/
def drawBarCalls (sorted : List Sample) (segmentKey : ℕ) :
    List (ℕ × ℕ × ℚ × Option ℚ) :=
  sorted.enum.map (fun p => (segmentKey, p.1, p.2.value, p.2.id))

/-! ### Object samples are mutated in place and stored by reference

The array branch of transformChartDataToPercent executes, on an object
element o the caller passed in,
  o.defValue = o.value; o.value = this.calculatePercent(o.value);
  return o;
so the very object the caller holds is mutated and that same object is the
one stored in the window. To state this aliasing, caller objects live in an
explicit heap (a list of JsObjRef indexed by position) and the window batch
stores heap references; the transform updates the heap in place and returns
the references it was given. -/

/-- A caller-owned sample object: value holds the raw number before the
call; defValue is absent (undefined) until the call adds it. -/
structure JsObjRef where
  value : ℚ
  defValue : Option ℚ
  id : Option ℚ
deriving DecidableEq, Repr

/-- The array branch of transformChartDataToPercent over heap references:
for each reference r, read o = heap[r], compute calculatePercent(o.value)
threading the chart state, then write o.defValue = old value and
o.value = the percent back into the same heap slot, and keep r itself in the
produced batch. (The heap.get? fallback is unreachable: the caller hands in
references to objects it owns.) -/
def transformArrayRefs (fuel : ℕ) :
    ChartState → List JsObjRef → List ℕ → ChartState × List JsObjRef × List ℕ
  | s, heap, [] => (s, heap, [])
  | s, heap, r :: rest =>
    match heap.get? r with
    | some o =>
      let c := calculatePercent fuel s o.value
      let heap2 := modifyIdx heap r
        (fun oo => {oo with defValue := some oo.value, value := c.2})
      let rr := transformArrayRefs fuel c.1 heap2 rest
      (rr.1, rr.2.1, r :: rr.2.2)
    | none =>
      let rr := transformArrayRefs fuel s heap rest
      (rr.1, rr.2.1, r :: rr.2.2)

/-- addChartData for a batch of caller objects, by reference: transform the
objects in the heap, push the batch of references, evict the head batch when
the window exceeds totalElement. -/
def addChartDataRefs (s : ChartState) (heap : List JsObjRef)
    (window : List (List ℕ)) (refs : List ℕ) :
    ChartState × List JsObjRef × List (List ℕ) :=
  let t := transformArrayRefs (fuelOf s) s heap refs
  let w := window ++ [t.2.2]
  (t.1, t.2.1, if t.1.totalElement < w.length then w.drop 1 else w)

/-! ### Theorems -/

/-! ### Basic evaluation and preservation lemmas -/

theorem jsRound_eq {x : ℚ} {z : ℤ} (h1 : (z:ℚ) ≤ x + 1/2) (h2 : x + 1/2 < z + 1) :
    jsRound x = z := by
  unfold jsRound
  exact Int.floor_eq_iff.mpr ⟨h1, h2⟩

theorem jsOr1_mono {m n : ℤ} (h : m ≤ n) : jsOr1 m ≤ jsOr1 n := by
  unfold jsOr1
  split <;> split <;> omega

theorem modifyIdx_length : ∀ (l : List α) (n : ℕ) (f : α → α),
    (modifyIdx l n f).length = l.length := by
  intro l
  induction l with
  | nil => intro n f; rfl
  | cons a t ih =>
    intro n f
    cases n with
    | zero => rfl
    | succ m => simp [modifyIdx, ih]

theorem modifyIdx_append (pre : List α) (x : α) (suf : List α) (f : α → α) :
    modifyIdx (pre ++ x :: suf) pre.length f = pre ++ f x :: suf := by
  induction pre with
  | nil => rfl
  | cons a t ih => simp [modifyIdx, ih]

theorem modifyIdx_get?_self : ∀ (l : List α) (i : ℕ) (f : α → α),
    (modifyIdx l i f).get? i = (l.get? i).map f := by
  intro l
  induction l with
  | nil => intro i f; cases i <;> rfl
  | cons a t ih =>
    intro i f
    cases i with
    | zero => rfl
    | succ m => simpa [modifyIdx] using ih m f

theorem setSample_length (d : List JsBatch) (i j : ℕ) (p : ℚ) :
    (setSample d i j p).length = d.length := by
  unfold setSample
  exact modifyIdx_length d i _

/-- filterValue never changes minValue, calcMaxValue or totalElement, and it
preserves the window length, provided its recalculation callback does. -/
theorem filterValueAux_pres (recalc : ChartState → ChartState)
    (hrec : ∀ s : ChartState, (recalc s).minValue = s.minValue ∧
      (recalc s).calcMaxValue = s.calcMaxValue ∧
      (recalc s).totalElement = s.totalElement ∧
      (recalc s).data.length = s.data.length)
    (s : ChartState) (v : ℚ) :
    (filterValueAux recalc s v).1.minValue = s.minValue ∧
    (filterValueAux recalc s v).1.calcMaxValue = s.calcMaxValue ∧
    (filterValueAux recalc s v).1.totalElement = s.totalElement ∧
    (filterValueAux recalc s v).1.data.length = s.data.length := by
  unfold filterValueAux calculateValueDiff
  split
  · exact ⟨rfl, rfl, rfl, rfl⟩
  · split
    · split
      · exact hrec _
      · exact ⟨rfl, rfl, rfl, rfl⟩
    · exact ⟨rfl, rfl, rfl, rfl⟩

theorem recalculatePercents_pres : ∀ (fuel : ℕ) (s : ChartState),
    (recalculatePercents fuel s).minValue = s.minValue ∧
    (recalculatePercents fuel s).calcMaxValue = s.calcMaxValue ∧
    (recalculatePercents fuel s).totalElement = s.totalElement ∧
    (recalculatePercents fuel s).data.length = s.data.length := by
  intro fuel
  induction fuel with
  | zero => intro s; exact ⟨rfl, rfl, rfl, rfl⟩
  | succ f ih =>
    have hfold : ∀ (grid : List (ℕ × ℕ × ℚ)) (s : ChartState),
        ((grid.foldl (recalcStep (recalculatePercents f)) s)).minValue = s.minValue ∧
        ((grid.foldl (recalcStep (recalculatePercents f)) s)).calcMaxValue = s.calcMaxValue ∧
        ((grid.foldl (recalcStep (recalculatePercents f)) s)).totalElement = s.totalElement ∧
        ((grid.foldl (recalcStep (recalculatePercents f)) s)).data.length = s.data.length := by
      intro grid
      induction grid with
      | nil => intro s; exact ⟨rfl, rfl, rfl, rfl⟩
      | cons t rest ihg =>
        intro s
        simp only [List.foldl_cons]
        have h1 := filterValueAux_pres (recalculatePercents f) ih s t.2.2
        have h2 := ihg (recalcStep (recalculatePercents f) s t)
        refine ⟨h2.1.trans ?_, h2.2.1.trans ?_, h2.2.2.1.trans ?_, h2.2.2.2.trans ?_⟩
        · exact h1.1
        · exact h1.2.1
        · exact h1.2.2.1
        · show (setSample _ _ _ _).length = s.data.length
          rw [setSample_length]
          exact h1.2.2.2
    intro s
    exact hfold (gridOf s.data) s

theorem calculatePercent_pres (fuel : ℕ) (s : ChartState) (v : ℚ) :
    (calculatePercent fuel s v).1.minValue = s.minValue ∧
    (calculatePercent fuel s v).1.calcMaxValue = s.calcMaxValue ∧
    (calculatePercent fuel s v).1.totalElement = s.totalElement ∧
    (calculatePercent fuel s v).1.data.length = s.data.length :=
  filterValueAux_pres (recalculatePercents fuel) (recalculatePercents_pres fuel) s v

theorem transformArray_pres (fuel : ℕ) : ∀ (l : List ArrElem) (s : ChartState),
    (transformArray fuel s l).1.minValue = s.minValue ∧
    (transformArray fuel s l).1.calcMaxValue = s.calcMaxValue ∧
    (transformArray fuel s l).1.totalElement = s.totalElement ∧
    (transformArray fuel s l).1.data.length = s.data.length ∧
    (transformArray fuel s l).2.length = l.length := by
  intro l
  induction l with
  | nil => intro s; exact ⟨rfl, rfl, rfl, rfl, rfl⟩
  | cons e rest ih =>
    intro s
    cases e with
    | num v =>
      have h1 := calculatePercent_pres fuel s v
      have h2 := ih (calculatePercent fuel s v).1
      simp only [transformArray, List.length_cons]
      exact ⟨h2.1.trans h1.1, h2.2.1.trans h1.2.1, h2.2.2.1.trans h1.2.2.1,
        h2.2.2.2.1.trans h1.2.2.2, by simp [h2.2.2.2.2]⟩
    | obj v id =>
      have h1 := calculatePercent_pres fuel s v
      have h2 := ih (calculatePercent fuel s v).1
      simp only [transformArray, List.length_cons]
      exact ⟨h2.1.trans h1.1, h2.2.1.trans h1.2.1, h2.2.2.1.trans h1.2.2.1,
        h2.2.2.2.1.trans h1.2.2.2, by simp [h2.2.2.2.2]⟩
    | other =>
      have h2 := ih s
      simp only [transformArray, List.length_cons]
      exact ⟨h2.1, h2.2.1, h2.2.2.1, h2.2.2.2.1, by simp [h2.2.2.2.2]⟩

theorem transformChartDataToPercent_pres (fuel : ℕ) (input : ChartInput) (s : ChartState) :
    (transformChartDataToPercent fuel s input).1.minValue = s.minValue ∧
    (transformChartDataToPercent fuel s input).1.calcMaxValue = s.calcMaxValue ∧
    (transformChartDataToPercent fuel s input).1.totalElement = s.totalElement ∧
    (transformChartDataToPercent fuel s input).1.data.length = s.data.length := by
  cases input with
  | num v =>
    have h := transformArray_pres fuel [.obj v none] s
    exact ⟨h.1, h.2.1, h.2.2.1, h.2.2.2.1⟩
  | obj v id =>
    have heq : transformChartDataToPercent fuel s (.obj v id)
        = if v ≠ 0 then
            (let r := transformArray fuel s [.obj v id]; (r.1, some r.2))
          else (s, none) := rfl
    rw [heq]
    by_cases hv : v ≠ 0
    · rw [if_pos hv]
      have h := transformArray_pres fuel [.obj v id] s
      exact ⟨h.1, h.2.1, h.2.2.1, h.2.2.2.1⟩
    · rw [if_neg hv]
      exact ⟨rfl, rfl, rfl, rfl⟩
  | arr l =>
    have h := transformArray_pres fuel l s
    exact ⟨h.1, h.2.1, h.2.2.1, h.2.2.2.1⟩
  | other => exact ⟨rfl, rfl, rfl, rfl⟩

/-! ### The expansion-free paths of the normalizer -/

/-- When the raw value does not exceed maxValue, or auto-expansion is off,
filterValue is a pure clamp and leaves the state untouched. -/
theorem filterValueAux_noexp (recalc : ChartState → ChartState) (s : ChartState) (v : ℚ)
    (h : v ≤ s.maxValue ∨ s.calcMaxValue = false) :
    filterValueAux recalc s v = (s, clampRange s.minValue s.maxValue v) := by
  unfold filterValueAux clampRange
  rcases h with h | h
  · have hnot : ¬ s.maxValue < v := not_lt.mpr h
    by_cases h1 : v < s.minValue
    · rw [if_pos h1, if_pos h1]
    · rw [if_neg h1, if_neg h1, if_neg hnot, if_neg hnot]
  · by_cases h1 : v < s.minValue
    · rw [if_pos h1, if_pos h1]
    · rw [if_neg h1, if_neg h1]
      by_cases h2 : s.maxValue < v
      · rw [if_pos h2, if_pos h2, h]
        simp
      · rw [if_neg h2, if_neg h2]

/-- calculatePercent on the expansion-free paths: the state is untouched and
the result is the percent of the clamped value under the current range. -/
theorem calculatePercent_noexp (fuel : ℕ) (s : ChartState) (v : ℚ)
    (h : v ≤ s.maxValue ∨ s.calcMaxValue = false) :
    calculatePercent fuel s v = (s, percentPure s.minValue s.maxValue s.valueDiff v) := by
  unfold calculatePercent calculatePercentAux percentPure
  rw [filterValueAux_noexp _ _ _ h]

theorem transformArray_noexp (fuel : ℕ) : ∀ (l : List ArrElem) (s : ChartState),
    (∀ v ∈ l.filterMap rawsOfElem, v ≤ s.maxValue ∨ s.calcMaxValue = false) →
    transformArray fuel s l
      = (s, l.map (pureElemSample s.minValue s.maxValue s.valueDiff)) := by
  intro l
  induction l with
  | nil => intro s h; rfl
  | cons e rest ih =>
    intro s h
    cases e with
    | num v =>
      have hv : v ≤ s.maxValue ∨ s.calcMaxValue = false := by
        apply h; simp [rawsOfElem]
      have hrest : ∀ w ∈ rest.filterMap rawsOfElem, w ≤ s.maxValue ∨ s.calcMaxValue = false := by
        intro w hw; apply h; simp [rawsOfElem, hw]
      simp only [transformArray, calculatePercent_noexp fuel s v hv, ih s hrest,
        List.map_cons, pureElemSample]
    | obj v id =>
      have hv : v ≤ s.maxValue ∨ s.calcMaxValue = false := by
        apply h; simp [rawsOfElem]
      have hrest : ∀ w ∈ rest.filterMap rawsOfElem, w ≤ s.maxValue ∨ s.calcMaxValue = false := by
        intro w hw; apply h; simp [rawsOfElem, hw]
      simp only [transformArray, calculatePercent_noexp fuel s v hv, ih s hrest,
        List.map_cons, pureElemSample]
    | other =>
      have hrest : ∀ w ∈ rest.filterMap rawsOfElem, w ≤ s.maxValue ∨ s.calcMaxValue = false := by
        intro w hw; apply h; simp [rawsOfElem, hw]
      simp only [transformArray, ih s hrest, List.map_cons, pureElemSample]

/-- transformChartDataToPercent on the expansion-free paths. -/
theorem transformChartDataToPercent_noexp (fuel : ℕ) (input : ChartInput) (s : ChartState)
    (h : ∀ v ∈ rawsOf input, v ≤ s.maxValue ∨ s.calcMaxValue = false) :
    transformChartDataToPercent fuel s input
      = (s, pureBatch s.minValue s.maxValue s.valueDiff input) := by
  cases input with
  | num v =>
    have hv : ∀ w ∈ ([ArrElem.obj v none]).filterMap rawsOfElem,
        w ≤ s.maxValue ∨ s.calcMaxValue = false := by
      intro w hw
      simp [rawsOfElem] at hw
      subst hw
      apply h; simp [rawsOf]
    show (let r := transformArray fuel s [.obj v none]; (r.1, some r.2)) = _
    rw [transformArray_noexp fuel [.obj v none] s hv]
    rfl
  | obj v id =>
    have heq : transformChartDataToPercent fuel s (.obj v id)
        = if v ≠ 0 then
            (let r := transformArray fuel s [.obj v id]; (r.1, some r.2))
          else (s, none) := rfl
    have heq2 : pureBatch s.minValue s.maxValue s.valueDiff (.obj v id)
        = if v ≠ 0 then some [pureElemSample s.minValue s.maxValue s.valueDiff (.obj v id)]
          else none := rfl
    rw [heq, heq2]
    by_cases hv : v ≠ 0
    · have hv2 : ∀ w ∈ ([ArrElem.obj v id]).filterMap rawsOfElem,
          w ≤ s.maxValue ∨ s.calcMaxValue = false := by
        intro w hw
        simp [rawsOfElem] at hw
        subst hw
        apply h; simp [rawsOf, hv]
      rw [if_pos hv, if_pos hv]
      rw [transformArray_noexp fuel [.obj v id] s hv2]
      rfl
    · rw [if_neg hv, if_neg hv]
  | arr l =>
    show (let r := transformArray fuel s l; (r.1, some r.2)) = _
    rw [transformArray_noexp fuel l s (by intro w hw; exact h w hw)]
    rfl
  | other => rfl

theorem jsOr1_of_ne {z : ℤ} (h : z ≠ 0) : jsOr1 z = z := if_neg h

theorem clampRange_of_mem {mn mx v : ℚ} (h1 : mn ≤ v) (h2 : v ≤ mx) :
    clampRange mn mx v = v := by
  unfold clampRange
  rw [if_neg (not_lt.mpr h1), if_neg (not_lt.mpr h2)]

theorem jsRound_mono {x y : ℚ} (h : x ≤ y) : jsRound x ≤ jsRound y :=
  Int.floor_le_floor (add_le_add_right h _)

/-- Evaluate the percent formula at concrete rationals. -/
theorem percentFormula_eval {mn diff c : ℚ} {z : ℤ} (hz : z ≠ 0)
    (h1 : (z:ℚ) ≤ (c - mn) / diff * 100 + 1/2) (h2 : (c - mn) / diff * 100 + 1/2 < z + 1) :
    percentFormula mn diff c = (z:ℚ) := by
  unfold percentFormula
  rw [jsRound_eq h1 h2, jsOr1_of_ne hz]

/-- Evaluate the clamped percent at a concrete in-range rational. -/
theorem percentPure_eval {mn mx diff v : ℚ} {z : ℤ} (hmn : mn ≤ v) (hmx : v ≤ mx)
    (hz : z ≠ 0) (h1 : (z:ℚ) ≤ (v - mn) / diff * 100 + 1/2)
    (h2 : (v - mn) / diff * 100 + 1/2 < z + 1) :
    percentPure mn mx diff v = (z:ℚ) := by
  unfold percentPure
  rw [clampRange_of_mem hmn hmx]
  exact percentFormula_eval hz h1 h2

/-- C1: for every configured range with minValue < maxValue (and valueDiff
derived from it, as calculateValueDiff keeps it), calculatePercent computes
Math.round((clamp(raw) - minValue) / valueDiff * 100) and returns 1 whenever
that rounding yields 0 (the || 1 fallback; a NaN, the other falsy value the
fallback catches in the source, cannot arise since valueDiff is nonzero) —
stated on the expansion-free paths, i.e. whenever calcMaxValue is off; and,
for any calcMaxValue, calculatePercent(minValue) = 1 and
calculatePercent(maxValue) = 100. -/
theorem calculatePercent_formula_and_endpoints (s : ChartState)
    (hd : s.valueDiff = s.maxValue - s.minValue) (hlt : s.minValue < s.maxValue) :
    (s.calcMaxValue = false → ∀ (fuel : ℕ) (v : ℚ),
      calculatePercent fuel s v
        = (s, percentPure s.minValue s.maxValue s.valueDiff v)) ∧
    (∀ fuel : ℕ, (calculatePercent fuel s s.minValue).2 = 1) ∧
    (∀ fuel : ℕ, (calculatePercent fuel s s.maxValue).2 = 100) := by
  have hdne : s.valueDiff ≠ 0 := by
    rw [hd]
    exact sub_ne_zero.mpr (ne_of_gt hlt)
  refine ⟨fun hcm fuel v => calculatePercent_noexp fuel s v (Or.inr hcm), ?_, ?_⟩
  · intro fuel
    rw [calculatePercent_noexp fuel s s.minValue (Or.inl hlt.le)]
    show percentPure _ _ _ _ = 1
    unfold percentPure percentFormula
    rw [clampRange_of_mem le_rfl hlt.le]
    rw [show (s.minValue - s.minValue) / s.valueDiff * 100 = 0 by ring]
    rw [show jsRound 0 = 0 from jsRound_eq (by norm_num) (by norm_num)]
    rfl
  · intro fuel
    rw [calculatePercent_noexp fuel s s.maxValue (Or.inl le_rfl)]
    show percentPure _ _ _ _ = 100
    unfold percentPure percentFormula
    rw [clampRange_of_mem hlt.le le_rfl]
    rw [show (s.maxValue - s.minValue) / s.valueDiff * 100 = 100 by
      rw [hd, div_self (hd ▸ hdne)]; ring]
    rw [show jsRound 100 = 100 from jsRound_eq (by norm_num) (by norm_num)]
    rw [jsOr1_of_ne (by norm_num)]
    norm_num

/-- C1 witness: a concrete valid range (minValue 0, maxValue 100). -/
theorem calculatePercent_formula_and_endpoints_witness :
    let s : ChartState :=
      { minValue := 0, maxValue := 100, valueDiff := 100,
        calcMaxValue := false, totalElement := 50, data := [] }
    (s.calcMaxValue = false → ∀ (fuel : ℕ) (v : ℚ),
      calculatePercent fuel s v
        = (s, percentPure s.minValue s.maxValue s.valueDiff v)) ∧
    (∀ fuel : ℕ, (calculatePercent fuel s s.minValue).2 = 1) ∧
    (∀ fuel : ℕ, (calculatePercent fuel s s.maxValue).2 = 100) :=
  calculatePercent_formula_and_endpoints _ (by norm_num) (by norm_num)

/-- C9: for a fixed valid range (valueDiff consistent, minValue < maxValue)
and raw inputs minValue ≤ a ≤ b ≤ maxValue, calculatePercent is monotone
non-decreasing, whatever calcMaxValue is (no expansion can fire in range). -/
theorem calculatePercent_monotone (s : ChartState)
    (hd : s.valueDiff = s.maxValue - s.minValue) (hlt : s.minValue < s.maxValue)
    (a b : ℚ) (ha : s.minValue ≤ a) (hab : a ≤ b) (hb : b ≤ s.maxValue) (fuel : ℕ) :
    (calculatePercent fuel s a).2 ≤ (calculatePercent fuel s b).2 := by
  rw [calculatePercent_noexp fuel s a (Or.inl (hab.trans hb)),
    calculatePercent_noexp fuel s b (Or.inl hb)]
  show percentPure _ _ _ _ ≤ percentPure _ _ _ _
  unfold percentPure percentFormula
  rw [clampRange_of_mem ha (hab.trans hb), clampRange_of_mem (ha.trans hab) hb]
  have hdpos : 0 < s.valueDiff := by
    rw [hd]
    exact sub_pos.mpr hlt
  have harg : (a - s.minValue) / s.valueDiff * 100 ≤ (b - s.minValue) / s.valueDiff * 100 := by
    have h1 : (a - s.minValue) / s.valueDiff ≤ (b - s.minValue) / s.valueDiff :=
      div_le_div_of_nonneg_right (sub_le_sub_right hab s.minValue) hdpos.le
    nlinarith
  exact_mod_cast jsOr1_mono (jsRound_mono harg)

/-- C9 witness: concrete in-range inputs 30 ≤ 60 in the range 0..100. -/
theorem calculatePercent_monotone_witness :
    let s : ChartState :=
      { minValue := 0, maxValue := 100, valueDiff := 100,
        calcMaxValue := true, totalElement := 50, data := [] }
    (calculatePercent 0 s 30).2 ≤ (calculatePercent 0 s 60).2 :=
  calculatePercent_monotone _ (by norm_num) (by norm_num) 30 60
    (by norm_num) (by norm_num) (by norm_num) 0

/-! ### Window size and eviction -/

theorem addChartData_length (s : ChartState) (v : ChartInput)
    (h : s.data.length ≤ s.totalElement) :
    (addChartData s v).data.length = min (s.data.length + 1) s.totalElement := by
  unfold addChartData
  have hp := transformChartDataToPercent_pres (fuelOf s) v s
  by_cases hc :
      (transformChartDataToPercent (fuelOf s) s v).1.totalElement
        < ((transformChartDataToPercent (fuelOf s) s v).1.data ++
            [(transformChartDataToPercent (fuelOf s) s v).2]).length
  · rw [if_pos hc]
    simp only [List.length_drop, List.length_append, List.length_cons, List.length_nil]
    rw [hp.2.2.1, List.length_append] at hc
    simp only [List.length_cons, List.length_nil] at hc
    rw [hp.2.2.2]
    omega
  · rw [if_neg hc]
    simp only [List.length_append, List.length_cons, List.length_nil]
    rw [hp.2.2.1, List.length_append] at hc
    simp only [List.length_cons, List.length_nil] at hc
    rw [hp.2.2.2]
    omega

theorem addChartData_totalElement (s : ChartState) (v : ChartInput) :
    (addChartData s v).totalElement = s.totalElement := by
  unfold addChartData
  have hp := transformChartDataToPercent_pres (fuelOf s) v s
  by_cases hc :
      (transformChartDataToPercent (fuelOf s) s v).1.totalElement
        < ((transformChartDataToPercent (fuelOf s) s v).1.data ++
            [(transformChartDataToPercent (fuelOf s) s v).2]).length
  · rw [if_pos hc]
    exact hp.2.2.1
  · rw [if_neg hc]
    exact hp.2.2.1

theorem foldl_addChartData_length : ∀ (inputs : List ChartInput) (s : ChartState),
    s.data.length ≤ s.totalElement →
    ((inputs.foldl addChartData s).data).length
      = min (s.data.length + inputs.length) s.totalElement := by
  intro inputs
  induction inputs with
  | nil =>
    intro s h
    simp only [List.foldl_nil, List.length_nil, Nat.add_zero]
    omega
  | cons v rest ih =>
    intro s h
    simp only [List.foldl_cons, List.length_cons]
    have h1 := addChartData_length s v h
    have h2 := addChartData_totalElement s v
    have h3 : (addChartData s v).data.length ≤ (addChartData s v).totalElement := by
      rw [h1, h2]; omega
    rw [ih (addChartData s v) h3, h1, h2]
    omega

/-- C3: starting from an empty window, after any sequence of addChartData
calls the window length is min(number of calls, totalElement); and each single
call appends the transformed batch at the tail and, exactly when the push
makes the length exceed totalElement, removes exactly one batch — the head
(the oldest), so the window is strict FIFO. -/
theorem addChartData_window_fifo :
    (∀ s0 : ChartState, s0.data = [] → ∀ inputs : List ChartInput,
      ((inputs.foldl addChartData s0).data).length = min inputs.length s0.totalElement) ∧
    (∀ (s : ChartState) (v : ChartInput), s.totalElement ≤ s.data.length →
      (addChartData s v).data
        = (((transformChartDataToPercent (fuelOf s) s v).1.data) ++
            [(transformChartDataToPercent (fuelOf s) s v).2]).drop 1) ∧
    (∀ (s : ChartState) (v : ChartInput), s.data.length < s.totalElement →
      (addChartData s v).data
        = ((transformChartDataToPercent (fuelOf s) s v).1.data) ++
            [(transformChartDataToPercent (fuelOf s) s v).2]) := by
  refine ⟨?_, ?_, ?_⟩
  · intro s0 h0 inputs
    have := foldl_addChartData_length inputs s0 (by rw [h0]; exact Nat.zero_le _)
    rw [h0] at this
    simpa using this
  · intro s v h
    have hp := transformChartDataToPercent_pres (fuelOf s) v s
    unfold addChartData
    rw [if_pos]
    rw [hp.2.2.1, List.length_append, hp.2.2.2]
    simp only [List.length_cons, List.length_nil]
    omega
  · intro s v h
    have hp := transformChartDataToPercent_pres (fuelOf s) v s
    unfold addChartData
    rw [if_neg]
    rw [hp.2.2.1, List.length_append, hp.2.2.2]
    simp only [List.length_cons, List.length_nil]
    omega

/-- C3 witness: the spec scenario (capacity 3, range 0..100, four appends)
for the length formula, plus one full-window and one non-full single call. -/
theorem addChartData_window_fifo_witness :
    let s0 : ChartState :=
      { minValue := 0, maxValue := 100, valueDiff := 100,
        calcMaxValue := false, totalElement := 3, data := [] }
    let sFull : ChartState := { s0 with totalElement := 1, data := [none] }
    ((([ChartInput.num 10, .num 200, .num 50, .num 90].foldl addChartData s0).data).length
        = min 4 3) ∧
    ((addChartData sFull (.num 7)).data
        = (((transformChartDataToPercent (fuelOf sFull) sFull (.num 7)).1.data) ++
            [(transformChartDataToPercent (fuelOf sFull) sFull (.num 7)).2]).drop 1) ∧
    ((addChartData s0 (.num 7)).data
        = ((transformChartDataToPercent (fuelOf s0) s0 (.num 7)).1.data) ++
            [(transformChartDataToPercent (fuelOf s0) s0 (.num 7)).2]) :=
  ⟨addChartData_window_fifo.1 _ rfl _,
   addChartData_window_fifo.2.1 _ _ (by norm_num),
   addChartData_window_fifo.2.2 _ _ (by norm_num)⟩

theorem batchOK_pureBatch (mn mx diff : ℚ) (input : ChartInput) :
    batchOK mn mx diff (pureBatch mn mx diff input) = true := by
  have helem : ∀ e : ArrElem, sampleOK mn mx diff (pureElemSample mn mx diff e) = true := by
    intro e
    cases e <;> simp [pureElemSample, sampleOK]
  cases input with
  | num v => simp [pureBatch, batchOK, helem]
  | obj v id =>
    by_cases hv : v ≠ 0
    · simp [pureBatch, batchOK, hv, helem]
    · simp [pureBatch, batchOK, hv]
  | arr l =>
    simp only [pureBatch, batchOK, Option.getD_some, List.all_eq_true]
    intro x hx
    rcases List.mem_map.mp hx with ⟨e, _, rfl⟩
    exact helem e
  | other => simp [pureBatch, batchOK]

/-- C4 (amended): an addChartData call none of whose raw numeric inputs
exceeds the current maxValue (so no auto-expansion fires) preserves the
invariant that every stored sample has value = percent of its defValue under
the range in effect after the call, and leaves the range unchanged. -/
theorem invariant_preserved_without_expansion (s : ChartState) (input : ChartInput)
    (hInv : windowOK s = true)
    (hraws : ∀ v ∈ rawsOf input, v ≤ s.maxValue) :
    windowOK (addChartData s input) = true ∧
    (addChartData s input).minValue = s.minValue ∧
    (addChartData s input).maxValue = s.maxValue ∧
    (addChartData s input).valueDiff = s.valueDiff := by
  have ht := transformChartDataToPercent_noexp (fuelOf s) input s
    (fun v hv => Or.inl (hraws v hv))
  unfold addChartData
  rw [ht]
  have hall : (s.data ++ [pureBatch s.minValue s.maxValue s.valueDiff input]).all
      (batchOK s.minValue s.maxValue s.valueDiff) = true := by
    rw [List.all_append]
    unfold windowOK at hInv
    rw [hInv]
    simp [batchOK_pureBatch]
  by_cases hc : (s, pureBatch s.minValue s.maxValue s.valueDiff input).1.totalElement
      < ((s, pureBatch s.minValue s.maxValue s.valueDiff input).1.data ++
          [(s, pureBatch s.minValue s.maxValue s.valueDiff input).2]).length
  · rw [if_pos hc]
    refine ⟨?_, rfl, rfl, rfl⟩
    show ((s.data ++ [pureBatch s.minValue s.maxValue s.valueDiff input]).drop 1).all
      (batchOK s.minValue s.maxValue s.valueDiff) = true
    rw [List.all_eq_true] at hall ⊢
    intro x hx
    exact hall x (List.drop_subset _ _ hx)
  · rw [if_neg hc]
    exact ⟨hall, rfl, rfl, rfl⟩

/-- C4 witness: a window holding the sample 10 (percent 10 in the range
0..100) stays consistent after appending the in-range raw 50. -/
theorem invariant_preserved_without_expansion_witness :
    let s : ChartState :=
      { minValue := 0, maxValue := 100, valueDiff := 100,
        calcMaxValue := true, totalElement := 3,
        data := [some [some ⟨10, 10, none⟩]] }
    windowOK (addChartData s (.num 50)) = true ∧
    (addChartData s (.num 50)).minValue = s.minValue ∧
    (addChartData s (.num 50)).maxValue = s.maxValue ∧
    (addChartData s (.num 50)).valueDiff = s.valueDiff := by
  intro s
  have h10 : percentPure 0 100 100 10 = ((10 : ℤ) : ℚ) :=
    percentPure_eval (by norm_num) (by norm_num) (by norm_num) (by norm_num) (by norm_num)
  refine invariant_preserved_without_expansion s (.num 50) ?_ ?_
  · show Bool.and (batchOK 0 100 100 (some [some ⟨10, 10, none⟩])) true = true
    simp only [batchOK, sampleOK, Option.getD_some, List.all_cons, List.all_nil, h10]
    norm_num
  · intro v hv
    simp only [rawsOf, List.mem_singleton] at hv
    subst hv
    norm_num

theorem c4_calc10 : calculatePercent 2 c4State 10 = (c4State, 10) := by
  rw [calculatePercent_noexp 2 c4State 10 (Or.inl (by norm_num [c4State]))]
  rw [show percentPure c4State.minValue c4State.maxValue c4State.valueDiff 10 = ((10:ℤ):ℚ)
    from percentPure_eval (by norm_num [c4State]) (by norm_num [c4State]) (by norm_num)
      (by norm_num [c4State]) (by norm_num [c4State])]
  norm_num

theorem c4_expandStep :
    calculateValueDiff {c4State with maxValue := (200:ℚ) + 200 * (1/10)} = c4Exp := by
  show ({ minValue := 0, maxValue := (200:ℚ) + 200 * (1/10),
          valueDiff := ((200:ℚ) + 200 * (1/10)) - 0,
          calcMaxValue := true, totalElement := 50, data := [] } : ChartState) = c4Exp
  rw [show (200:ℚ) + 200 * (1/10) = 220 by norm_num]
  rw [show (220:ℚ) - 0 = 220 by norm_num]
  rfl

theorem c4_filter200 : filterValue 2 c4State 200 = (c4Exp, 200) := by
  unfold filterValue filterValueAux
  rw [if_neg (by norm_num [c4State] : ¬ (200:ℚ) < c4State.minValue)]
  rw [if_pos (by norm_num [c4State] : c4State.maxValue < (200:ℚ))]
  rw [if_pos (show c4State.calcMaxValue = true from rfl)]
  show (recalculatePercents 2
    (calculateValueDiff {c4State with maxValue := (200:ℚ) + 200 * (1/10)}), 200) = (c4Exp, 200)
  rw [c4_expandStep]
  rfl

theorem c4_calc200 : calculatePercent 2 c4State 200 = (c4Exp, 91) := by
  show ((filterValue 2 c4State 200).1,
    percentFormula (filterValue 2 c4State 200).1.minValue
      (filterValue 2 c4State 200).1.valueDiff (filterValue 2 c4State 200).2) = (c4Exp, 91)
  rw [c4_filter200]
  show (c4Exp, percentFormula c4Exp.minValue c4Exp.valueDiff 200) = (c4Exp, 91)
  rw [show percentFormula c4Exp.minValue c4Exp.valueDiff 200 = ((91:ℤ):ℚ)
    from percentFormula_eval (by norm_num) (by norm_num [c4Exp]) (by norm_num [c4Exp])]
  norm_num

theorem c4_transform :
    transformChartDataToPercent 2 c4State (.arr [.num 10, .num 200])
      = (c4Exp, some [some ⟨10, 10, none⟩, some ⟨91, 200, none⟩]) := by
  show (let r := transformArray 2 c4State [.num 10, .num 200]; (r.1, some r.2))
      = (c4Exp, some [some ⟨10, 10, none⟩, some ⟨91, 200, none⟩])
  have htr : transformArray 2 c4State [ArrElem.num 10, ArrElem.num 200]
      = (c4Exp, [some ⟨10, 10, none⟩, some ⟨91, 200, none⟩]) := by
    show (let r := calculatePercent 2 c4State 10
          let rr := transformArray 2 r.1 [ArrElem.num 200]
          (rr.1, some ⟨r.2, 10, none⟩ :: rr.2))
        = (c4Exp, [some ⟨10, 10, none⟩, some ⟨91, 200, none⟩])
    rw [c4_calc10]
    show (let rr := transformArray 2 c4State [ArrElem.num 200]
          (rr.1, some ⟨10, 10, none⟩ :: rr.2))
        = (c4Exp, [some ⟨10, 10, none⟩, some ⟨91, 200, none⟩])
    have htr2 : transformArray 2 c4State [ArrElem.num 200]
        = (c4Exp, [some ⟨91, 200, none⟩]) := by
      show (let r := calculatePercent 2 c4State 200
            let rr := transformArray 2 r.1 ([] : List ArrElem)
            (rr.1, some ⟨r.2, 200, none⟩ :: rr.2))
          = (c4Exp, [some ⟨91, 200, none⟩])
      rw [c4_calc200]
      rfl
    rw [htr2]
  rw [htr]

/-- C4 counterexample: the claim fails on a batch that triggers the
auto-expansion partway through. Appending the batch [10, 200] to a fresh
0..100 chart with calcMaxValue on stores the first sample with value 10
(computed before the expansion), while recalculating its defValue 10 under
the range in effect after the call (0..220) gives 5: the first sample of the
appended batch is left stale, so not every stored sample satisfies
value = calculatePercent(defValue). -/
theorem batch_expansion_leaves_stale_sample :
    (addChartData c4State (.arr [.num 10, .num 200])).data
      = [some [some ⟨10, 10, none⟩, some ⟨91, 200, none⟩]] ∧
    (addChartData c4State (.arr [.num 10, .num 200])).minValue = 0 ∧
    (addChartData c4State (.arr [.num 10, .num 200])).maxValue = 220 ∧
    (addChartData c4State (.arr [.num 10, .num 200])).valueDiff = 220 ∧
    (calculatePercent 4 (addChartData c4State (.arr [.num 10, .num 200])) 10).2 = 5 ∧
    (10 : ℚ) ≠ 5 := by
  have hadd : addChartData c4State (.arr [.num 10, .num 200])
      = {c4Exp with data := [some [some ⟨10, 10, none⟩, some ⟨91, 200, none⟩]]} := by
    unfold addChartData
    rw [show fuelOf c4State = 2 from rfl]
    rw [c4_transform]
    show (if (50:ℕ) < 1 then _ else _) = _
    rw [if_neg (by norm_num)]
    rfl
  rw [hadd]
  refine ⟨rfl, rfl, rfl, rfl, ?_, by norm_num⟩
  have hnx : (10:ℚ) ≤ ({c4Exp with
      data := [some [some ⟨10, 10, none⟩, some ⟨91, 200, none⟩]]} : ChartState).maxValue := by
    norm_num [c4Exp]
  rw [calculatePercent_noexp 4 _ 10 (Or.inl hnx)]
  show percentPure c4Exp.minValue c4Exp.maxValue c4Exp.valueDiff 10 = 5
  rw [show percentPure c4Exp.minValue c4Exp.maxValue c4Exp.valueDiff 10 = ((5:ℤ):ℚ)
    from percentPure_eval (by norm_num [c4Exp]) (by norm_num [c4Exp]) (by norm_num)
      (by norm_num [c4Exp]) (by norm_num [c4Exp])]
  norm_num

theorem sampleGrid_writes (w : ℚ → ℚ) :
    ∀ (bs bpre : List (Option Sample)) (pre suf : List JsBatch),
    (sampleGrid pre.length bpre.length bs).foldl
      (fun X t => setSample X t.1 t.2.1 (w t.2.2))
      (pre ++ some (bpre ++ bs) :: suf)
    = pre ++ some (bpre ++ bs.map (Option.map (updVal w))) :: suf := by
  intro bs
  induction bs with
  | nil => intro bpre pre suf; simp [sampleGrid]
  | cons os t ih =>
    intro bpre pre suf
    cases os with
    | none =>
      show (sampleGrid pre.length (bpre.length + 1) t).foldl _ _ = _
      have hlen : bpre.length + 1 = (bpre ++ [(none : Option Sample)]).length := by simp
      rw [hlen]
      rw [show bpre ++ (none : Option Sample) :: t = (bpre ++ [none]) ++ t by simp]
      rw [ih (bpre ++ [none]) pre suf]
      simp [updVal]
    | some smp =>
      show ((sampleGrid pre.length bpre.length (some smp :: t)).foldl _ _) = _
      rw [show sampleGrid pre.length bpre.length (some smp :: t)
          = (pre.length, bpre.length, smp.defValue) :: sampleGrid pre.length (bpre.length + 1) t
        from rfl]
      rw [List.foldl_cons]
      have hstep : setSample (pre ++ some (bpre ++ some smp :: t) :: suf)
          pre.length bpre.length (w smp.defValue)
          = pre ++ some (bpre ++ some (updVal w smp) :: t) :: suf := by
        unfold setSample
        rw [modifyIdx_append]
        show pre ++ some (modifyIdx (bpre ++ some smp :: t) bpre.length _) :: suf = _
        rw [modifyIdx_append]
        rfl
      rw [hstep]
      have hlen : bpre.length + 1 = (bpre ++ [some (updVal w smp)]).length := by simp
      rw [hlen]
      rw [show bpre ++ some (updVal w smp) :: t
          = (bpre ++ [some (updVal w smp)]) ++ t by simp]
      rw [ih (bpre ++ [some (updVal w smp)]) pre suf]
      simp

theorem gridOfAux_writes (w : ℚ → ℚ) :
    ∀ (d pre : List JsBatch),
    (gridOfAux pre.length d).foldl
      (fun X t => setSample X t.1 t.2.1 (w t.2.2)) (pre ++ d)
    = pre ++ mapData w d := by
  intro d
  induction d with
  | nil => intro pre; simp [gridOfAux, mapData]
  | cons ob t ih =>
    intro pre
    cases ob with
    | none =>
      show (gridOfAux (pre.length + 1) t).foldl _ _ = _
      have hlen : pre.length + 1 = (pre ++ [(none : JsBatch)]).length := by simp
      rw [hlen]
      rw [show pre ++ (none : JsBatch) :: t = (pre ++ [none]) ++ t by simp]
      rw [ih (pre ++ [none])]
      simp [mapData]
    | some b =>
      show ((sampleGrid pre.length 0 b ++ gridOfAux (pre.length + 1) t).foldl _ _) = _
      rw [List.foldl_append]
      have h1 : (sampleGrid pre.length 0 b).foldl
          (fun X t => setSample X t.1 t.2.1 (w t.2.2)) (pre ++ some b :: t)
          = pre ++ some (b.map (Option.map (updVal w))) :: t := by
        have := sampleGrid_writes w b [] pre t
        simpa using this
      rw [h1]
      have hlen : pre.length + 1 = (pre ++ [some (b.map (Option.map (updVal w)))]).length := by
        simp
      rw [hlen]
      rw [show pre ++ some (b.map (Option.map (updVal w))) :: t
          = (pre ++ [some (b.map (Option.map (updVal w)))]) ++ t by simp]
      rw [ih (pre ++ [some (b.map (Option.map (updVal w)))])]
      simp [mapData]

/-- The recalcStep at a position whose defValue does not exceed maxValue is a
pure write of the recomputed percent. -/
theorem recalcStep_noTrig (R : ChartState → ChartState) (s : ChartState) (t : ℕ × ℕ × ℚ)
    (h : t.2.2 ≤ s.maxValue) :
    recalcStep R s t
      = {s with data := setSample s.data t.1 t.2.1 (percentPure s.minValue s.maxValue s.valueDiff t.2.2)} := by
  unfold recalcStep calculatePercentAux
  rw [filterValueAux_noexp R s t.2.2 (Or.inl h)]
  rfl

/-- When no stored defValue in the grid exceeds maxValue, the traversal is a
fold of pure writes. -/
theorem recalcFold_noTrig (R : ChartState → ChartState) :
    ∀ (grid : List (ℕ × ℕ × ℚ)) (s : ChartState),
    (∀ t ∈ grid, t.2.2 ≤ s.maxValue) →
    grid.foldl (recalcStep R) s
      = {s with data := grid.foldl (fun X t => setSample X t.1 t.2.1 (percentPure s.minValue s.maxValue s.valueDiff t.2.2)) s.data} := by
  intro grid
  induction grid with
  | nil => intro s _; rfl
  | cons t rest ih =>
    intro s h
    rw [List.foldl_cons, List.foldl_cons]
    rw [recalcStep_noTrig R s t (h t (List.mem_cons_self t rest))]
    have hrest : ∀ u ∈ rest,
        u.2.2 ≤ ({s with data := setSample s.data t.1 t.2.1 (percentPure s.minValue s.maxValue s.valueDiff t.2.2)} : ChartState).maxValue :=
      fun u hu => h u (List.mem_cons_of_mem t hu)
    rw [ih _ hrest]

/-- recalculatePercents with positive fuel, when no stored defValue exceeds
maxValue: every stored sample value is rewritten to the percent of its
defValue under the current range, and nothing else changes. -/
theorem recalculatePercents_noTrig (f : ℕ) (s : ChartState)
    (h : ∀ t ∈ gridOf s.data, t.2.2 ≤ s.maxValue) :
    recalculatePercents (f+1) s
      = {s with data :=
          mapData (percentPure s.minValue s.maxValue s.valueDiff) s.data} := by
  show (gridOf s.data).foldl (recalcStep (recalculatePercents f)) s = _
  rw [recalcFold_noTrig (recalculatePercents f) (gridOf s.data) s h]
  have := gridOfAux_writes (percentPure s.minValue s.maxValue s.valueDiff) s.data []
  simpa [gridOf] using this

/-- Helper: full characterization of an addChartData call that triggers one
auto-expansion with no cascade (raw v above maxValue, v positive, no stored
defValue above v, window not full). -/
theorem addChartData_expand_eq (s : ChartState) (v : ℚ)
    (hc : s.calcMaxValue = true) (hv : s.maxValue < v) (hvpos : 0 < v)
    (hmin : s.minValue ≤ s.maxValue)
    (hall : ∀ t ∈ gridOf s.data, t.2.2 ≤ v)
    (hcap : s.data.length < s.totalElement) :
    addChartData s (.num v)
      = { minValue := s.minValue, maxValue := v + v * (1/10),
          valueDiff := v + v * (1/10) - s.minValue,
          calcMaxValue := s.calcMaxValue, totalElement := s.totalElement,
          data := mapData (percentPure s.minValue (v + v * (1/10)) (v + v * (1/10) - s.minValue)) s.data
            ++ [some [some ⟨percentFormula s.minValue (v + v * (1/10) - s.minValue) v, v, none⟩]] } := by
  have hvM : v < v + v * (1/10) := by nlinarith
  have hnlt : ¬ v < s.minValue := not_lt.mpr (le_of_lt (lt_of_le_of_lt hmin hv))
  have hrec : recalculatePercents (totalSamples s.data + 1 + 1)
      (calculateValueDiff {s with maxValue := v + v * (1/10)})
      = { minValue := s.minValue, maxValue := v + v * (1/10),
          valueDiff := v + v * (1/10) - s.minValue,
          calcMaxValue := s.calcMaxValue, totalElement := s.totalElement,
          data := mapData (percentPure s.minValue (v + v * (1/10)) (v + v * (1/10) - s.minValue)) s.data } := by
    have hcond : ∀ t ∈ gridOf ((calculateValueDiff {s with maxValue := v + v * (1/10)}).data),
        t.2.2 ≤ (calculateValueDiff {s with maxValue := v + v * (1/10)}).maxValue := by
      intro t ht
      show t.2.2 ≤ v + v * (1/10)
      exact le_of_lt (lt_of_le_of_lt (hall t ht) hvM)
    exact recalculatePercents_noTrig (totalSamples s.data + 1)
      (calculateValueDiff {s with maxValue := v + v * (1/10)}) hcond
  have hflt : filterValue (fuelOf s) s v
      = ({ minValue := s.minValue, maxValue := v + v * (1/10),
           valueDiff := v + v * (1/10) - s.minValue,
           calcMaxValue := s.calcMaxValue, totalElement := s.totalElement,
           data := mapData (percentPure s.minValue (v + v * (1/10)) (v + v * (1/10) - s.minValue)) s.data }, v) := by
    unfold filterValue filterValueAux
    rw [if_neg hnlt, if_pos hv, if_pos hc]
    show (recalculatePercents (fuelOf s)
      (calculateValueDiff {s with maxValue := v + v * (1/10)}), v) = _
    rw [show fuelOf s = totalSamples s.data + 1 + 1 from rfl]
    rw [hrec]
  have hcalc : calculatePercent (fuelOf s) s v
      = ({ minValue := s.minValue, maxValue := v + v * (1/10),
           valueDiff := v + v * (1/10) - s.minValue,
           calcMaxValue := s.calcMaxValue, totalElement := s.totalElement,
           data := mapData (percentPure s.minValue (v + v * (1/10)) (v + v * (1/10) - s.minValue)) s.data },
         percentFormula s.minValue (v + v * (1/10) - s.minValue) v) := by
    show ((filterValue (fuelOf s) s v).1,
      percentFormula (filterValue (fuelOf s) s v).1.minValue
        (filterValue (fuelOf s) s v).1.valueDiff (filterValue (fuelOf s) s v).2) = _
    rw [hflt]
  have htrA : transformArray (fuelOf s) s [ArrElem.obj v none]
      = ({ minValue := s.minValue, maxValue := v + v * (1/10),
           valueDiff := v + v * (1/10) - s.minValue,
           calcMaxValue := s.calcMaxValue, totalElement := s.totalElement,
           data := mapData (percentPure s.minValue (v + v * (1/10)) (v + v * (1/10) - s.minValue)) s.data },
         [some ⟨percentFormula s.minValue (v + v * (1/10) - s.minValue) v, v, none⟩]) := by
    show (let r := calculatePercent (fuelOf s) s v
          let rr := transformArray (fuelOf s) r.1 ([] : List ArrElem)
          (rr.1, some (⟨r.2, v, none⟩ : Sample) :: rr.2)) = _
    rw [hcalc]
    rfl
  have htrans : transformChartDataToPercent (fuelOf s) s (.num v)
      = ({ minValue := s.minValue, maxValue := v + v * (1/10),
           valueDiff := v + v * (1/10) - s.minValue,
           calcMaxValue := s.calcMaxValue, totalElement := s.totalElement,
           data := mapData (percentPure s.minValue (v + v * (1/10)) (v + v * (1/10) - s.minValue)) s.data },
         some [some ⟨percentFormula s.minValue (v + v * (1/10) - s.minValue) v, v, none⟩]) := by
    show (let r := transformArray (fuelOf s) s [ArrElem.obj v none]; (r.1, some r.2)) = _
    rw [htrA]
  unfold addChartData
  rw [htrans]
  have hlen : (mapData (percentPure s.minValue (v + v * (1/10)) (v + v * (1/10) - s.minValue)) s.data).length
      = s.data.length := List.length_map _ _
  rw [if_neg (by
    show ¬ s.totalElement < (mapData (percentPure s.minValue (v + v * (1/10)) (v + v * (1/10) - s.minValue)) s.data
      ++ [some [some (⟨percentFormula s.minValue (v + v * (1/10) - s.minValue) v, v, none⟩ : Sample)]]).length
    rw [List.length_append, hlen]
    simp only [List.length_cons, List.length_nil]
    omega)]

/-- C2 counterexample: in the spec scenario (min 0, previous max 100,
stored 10, append 200 with calcMaxValue on) the window is rewritten as the
claim says (max 220, stored 10 recomputed to 5) but the raw 200 is appended
with percent Math.round(200 / 220 * 100) = 91 — not 100 as the claim states. -/
theorem autoExpand_return_percent_not_100 :
    (addChartData c2State (.num 200)).maxValue = 220 ∧
    (addChartData c2State (.num 200)).valueDiff = 220 ∧
    (addChartData c2State (.num 200)).data
      = [some [some ⟨5, 10, none⟩], some [some ⟨91, 200, none⟩]] ∧
    ((91 : ℚ) ≠ 100) := by
  have h5 : percentPure 0 220 220 10 = 5 := by
    have := @percentPure_eval 0 220 220 10 5 (by norm_num) (by norm_num) (by norm_num)
      (by norm_num) (by norm_num)
    rw [this]
    norm_num
  have h91 : percentFormula 0 220 200 = 91 := by
    have := @percentFormula_eval 0 220 200 91 (by norm_num) (by norm_num) (by norm_num)
    rw [this]
    norm_num
  have hall : ∀ t ∈ gridOf c2State.data, t.2.2 ≤ (200:ℚ) := by
    intro t ht
    rw [show gridOf c2State.data = [(0, 0, (10:ℚ))] from rfl] at ht
    simp only [List.mem_singleton] at ht
    subst ht
    norm_num
  have h := addChartData_expand_eq c2State 200 rfl (by norm_num [c2State])
    (by norm_num) (by norm_num [c2State]) hall (by norm_num [c2State])
  rw [h]
  norm_num [c2State, mapData, updVal, h5, h91]

/-- C2 (amended): appending a raw number v strictly above maxValue with
calcMaxValue on (v positive, no stored defValue above v, window not full)
grows maxValue to v + v * 0.1 (that is, 1.1 * v), recomputes
valueDiff = 1.1 * v - minValue, rewrites every stored sample value to the
percent of its defValue under the new range, and appends the unclamped raw
with value Math.round((v - minValue) / valueDiff * 100) || 1 — the percent of
v under the grown range, which is not 100 (91 in the spec scenario, see the
counterexample). -/
theorem autoExpand_growth_and_recalc (s : ChartState) (v : ℚ)
    (hc : s.calcMaxValue = true) (hv : s.maxValue < v) (hvpos : 0 < v)
    (hmin : s.minValue ≤ s.maxValue)
    (hall : ∀ t ∈ gridOf s.data, t.2.2 ≤ v)
    (hcap : s.data.length < s.totalElement) :
    addChartData s (.num v)
      = { minValue := s.minValue, maxValue := v + v * (1/10),
          valueDiff := v + v * (1/10) - s.minValue,
          calcMaxValue := s.calcMaxValue, totalElement := s.totalElement,
          data := mapData (percentPure s.minValue (v + v * (1/10)) (v + v * (1/10) - s.minValue)) s.data
            ++ [some [some ⟨percentFormula s.minValue (v + v * (1/10) - s.minValue) v, v, none⟩]] } :=
  addChartData_expand_eq s v hc hv hvpos hmin hall hcap

/-- C2 witness: the amended theorem applied at the spec scenario. -/
theorem autoExpand_growth_and_recalc_witness :
    addChartData c2State (.num 200)
      = { minValue := c2State.minValue, maxValue := 200 + 200 * (1/10),
          valueDiff := 200 + 200 * (1/10) - c2State.minValue,
          calcMaxValue := c2State.calcMaxValue, totalElement := c2State.totalElement,
          data := mapData (percentPure c2State.minValue (200 + 200 * (1/10)) (200 + 200 * (1/10) - c2State.minValue)) c2State.data
            ++ [some [some ⟨percentFormula c2State.minValue (200 + 200 * (1/10) - c2State.minValue) 200, 200, none⟩]] } :=
  autoExpand_growth_and_recalc c2State 200 rfl (by norm_num [c2State]) (by norm_num)
    (by norm_num [c2State])
    (by
      intro t ht
      rw [show gridOf c2State.data = [(0, 0, (10:ℚ))] from rfl] at ht
      simp only [List.mem_singleton] at ht
      subst ht
      norm_num)
    (by norm_num [c2State])

/-- C7 (amended): on the constructor-initialized settings, calculateDefaults
sets paddingBottom to config.paddingBottom + 30 exactly when a non-empty
legend is configured and otherwise leaves it at its initial 0 (ignoring
config.paddingBottom); sets paddingRight to config.paddingRight + 30 exactly
when the ruler is shown and otherwise leaves it at 0; and derives
stageWidth = width - 2 - paddingRight - 2, stageHeight = height - 2 -
paddingBottom - 2, oneXSegment = stageWidth / totalElement, oneYSegment =
stageHeight / 100. -/
theorem calculateDefaults_spec (o : ChartOptions) :
    (calculateDefaults o initialSettings).paddingBottom
      = (if 0 < o.legendLength then o.paddingBottom + 30 else 0) ∧
    (calculateDefaults o initialSettings).paddingRight
      = (if o.showRuler then o.paddingRight + 30 else 0) ∧
    (calculateDefaults o initialSettings).stageWidth
      = o.width - 2 - (calculateDefaults o initialSettings).paddingRight - 2 ∧
    (calculateDefaults o initialSettings).stageHeight
      = o.height - 2 - (calculateDefaults o initialSettings).paddingBottom - 2 ∧
    (calculateDefaults o initialSettings).oneXSegment
      = (calculateDefaults o initialSettings).stageWidth / o.totalElement ∧
    (calculateDefaults o initialSettings).oneYSegment
      = (calculateDefaults o initialSettings).stageHeight / 100 := by
  unfold calculateDefaults initialSettings
  by_cases hl : 0 < o.legendLength <;> by_cases hr : o.showRuler <;>
    simp [hl, hr]

/-- C7 counterexample: with an empty legend and config.paddingBottom = 7 the
computed settings.paddingBottom is 0, not the 7 the claim requires (and with
the ruler disabled and config.paddingRight = 9 the computed paddingRight is
0, not 9): the no-legend / no-ruler branches do not copy the configured
padding, they leave the constructor value. -/
theorem calculateDefaults_ignores_padding_without_legend :
    (calculateDefaults
      { width := 600, height := 600, totalElement := 50, minValue := 250,
        maxValue := 500, showRuler := false, legendLength := 0,
        paddingRight := 9, paddingBottom := 7 } initialSettings).paddingBottom = 0 ∧
    (calculateDefaults
      { width := 600, height := 600, totalElement := 50, minValue := 250,
        maxValue := 500, showRuler := false, legendLength := 0,
        paddingRight := 9, paddingBottom := 7 } initialSettings).paddingRight = 0 ∧
    ((0 : ℚ) ≠ 7) ∧ ((0 : ℚ) ≠ 9) := by
  refine ⟨?_, ?_, by norm_num, by norm_num⟩ <;> rfl

/-! ### Malformed input -/

/-- C8 (amended): a malformed argument (neither a number, nor an object with
a truthy value field, nor an array — e.g. a string or a boolean) makes
transformChartDataToPercent return undefined, and addChartData pushes that
undefined batch anyway: the call raises no error, but the window is changed —
its length grows by one (the head batch being evicted when the push exceeds
totalElement); it is not a no-op. -/
theorem malformed_input_changes_window (s : ChartState) :
    addChartData s .other
      = {s with data := if s.totalElement < s.data.length + 1
          then (s.data ++ [none]).drop 1 else s.data ++ [none]} := by
  unfold addChartData
  show (if s.totalElement < (s.data ++ [(none : JsBatch)]).length then _ else _) = _
  rw [List.length_append]
  simp only [List.length_cons, List.length_nil]
  by_cases hc : s.totalElement < s.data.length + 1
  · rw [if_pos hc, if_pos hc]
    rfl
  · rw [if_neg hc, if_neg hc]
    rfl

/-- C8 witness: the amended theorem at a concrete fresh chart. -/
theorem malformed_input_changes_window_witness :
    let s : ChartState :=
      { minValue := 250, maxValue := 500, valueDiff := 250,
        calcMaxValue := false, totalElement := 50, data := [] }
    addChartData s .other
      = {s with data := if s.totalElement < s.data.length + 1
          then (s.data ++ [none]).drop 1 else s.data ++ [none]} :=
  malformed_input_changes_window _

/-- C8 counterexample: on a fresh chart, addChartData of a malformed value
leaves the window [undefined], of length 1 — not unchanged (the claim says
the window keeps its length and contents). -/
theorem malformed_input_pushes_undefined_batch :
    (addChartData
      { minValue := 250, maxValue := 500, valueDiff := 250,
        calcMaxValue := false, totalElement := 50, data := [] } .other).data = [none] ∧
    ([none] : List JsBatch) ≠ [] ∧
    (addChartData
      { minValue := 250, maxValue := 500, valueDiff := 250,
        calcMaxValue := false, totalElement := 50, data := [] } .other).data.length = 1 ∧
    (1 : ℕ) ≠ 0 := by
  refine ⟨rfl, by simp, rfl, by norm_num⟩

theorem sortDesc_nonneg (a b : Sample) : 0 ≤ sortDesc a b := by
  unfold sortDesc
  split <;> omega

theorem ascRunsGo_of_nonneg (cmp : α → α → ℤ) (h : ∀ a b, 0 ≤ cmp a b) :
    ∀ (t : List α) (prev : α) (run : List α),
    ascRunsGo cmp prev run t = [run ++ t] := by
  intro t
  induction t with
  | nil => intro prev run; simp [ascRunsGo]
  | cons x t ih =>
    intro prev run
    show (if 0 ≤ cmp x prev then ascRunsGo cmp x (run ++ [x]) t
      else run :: ascRunsGo cmp x [x] t) = [run ++ x :: t]
    rw [if_pos (h x prev), ih x (run ++ [x])]
    simp

/-- Helper: with the never-negative sortDesc comparator, a TimSort engine
sees any batch as a single ascending run and returns it unchanged. -/
theorem timSortJS_sortDesc_eq_self : ∀ batch : List Sample,
    timSortJS sortDesc batch = batch := by
  intro batch
  cases batch with
  | nil => rfl
  | cons x t =>
    show (ascRunsGo sortDesc x [x] t).foldl (mergeTS sortDesc) [] = x :: t
    rw [ascRunsGo_of_nonneg sortDesc sortDesc_nonneg t x [x]]
    simp [mergeTS]

/-- C6 (amended): Array.prototype.sort runs in place on the stored batch, so
after a bar-mode frame the batch holds exactly what the engine sort returned;
because sortDesc never returns a negative number, a TimSort engine detects
the whole batch as one ascending run and returns it unchanged — on such
engines every batch inside the window after render equals the batch before
render (the comparator being inconsistent, this is engine behaviour, not a
guarantee that the sort result is discarded; see the counterexample for an
engine that does reorder the stored batch). -/
theorem timSort_sortDesc_identity : ∀ batch : List Sample,
    timSortJS sortDesc batch = batch :=
  timSortJS_sortDesc_eq_self

/-- C6 counterexample: the sorted array is the stored batch (sort is in
place), and an ES-conforming insertion-sort engine reorders the stored batch
[50, 90] into [90, 50] — the window after render differs from the window
before, refuting the claim that the draw-order sort is never persisted back
into the window. -/
theorem inplace_sort_reorders_window_on_insertion_engine :
    insertionOldV8 sortDesc [⟨50, 50, none⟩, ⟨90, 90, none⟩]
      = [⟨90, 90, none⟩, ⟨50, 50, none⟩] ∧
    ([(⟨90, 90, none⟩ : Sample), ⟨50, 50, none⟩]
      ≠ [(⟨50, 50, none⟩ : Sample), ⟨90, 90, none⟩]) := by
  constructor
  · rfl
  · intro h
    have := List.head_eq_of_cons_eq h
    have h5090 : (⟨90, 90, none⟩ : Sample) = ⟨50, 50, none⟩ := this
    have : (90 : ℚ) = 50 := congrArg Sample.value h5090
    norm_num at this

/-- C5 (code bug): sortDesc returns a Boolean, which ToNumber coerces to 0 or
1; it is never negative and is inconsistent (it answers
"equal" on (90, 50) but "after" on (50, 90)), so ECMAScript leaves the sort
order implementation-defined, and on a TimSort engine the batch [50, 90] is
drawn in the order [50, 90] — not descending by value as the spec requires of
the intended descending comparator. -/
theorem sortDesc_comparator_broken :
    (∀ a b : Sample, 0 ≤ sortDesc a b) ∧
    sortDesc ⟨90, 90, none⟩ ⟨50, 50, none⟩ = 0 ∧
    sortDesc ⟨50, 50, none⟩ ⟨90, 90, none⟩ = 1 ∧
    timSortJS sortDesc [⟨50, 50, none⟩, ⟨90, 90, none⟩]
      = [⟨50, 50, none⟩, ⟨90, 90, none⟩] ∧
    drawBarCalls (timSortJS sortDesc [⟨50, 50, none⟩, ⟨90, 90, none⟩]) 0
      = [(0, 0, 50, none), (0, 1, 90, none)] := by
  refine ⟨sortDesc_nonneg, ?_, ?_, timSortJS_sortDesc_eq_self _, ?_⟩
  · show (if (90:ℚ) < 50 then (1:ℤ) else 0) = 0
    rw [if_neg (by norm_num)]
  · show (if (50:ℚ) < 90 then (1:ℤ) else 0) = 1
    rw [if_pos (by norm_num)]
  · rw [timSortJS_sortDesc_eq_self]
    rfl

/-- C10: when addChartData is handed an object sample, the caller object
itself is overwritten — value becomes the normalized percent, a defValue
field holding the original raw value is added, the id is kept — and the
window stores the same reference, so after the call the caller sees the
percent, not the raw value, under value. (Stated for a raw within range so
that the percent computation does not itself mutate the chart state.) -/
theorem object_samples_mutated_in_place (s : ChartState) (heap : List JsObjRef)
    (window : List (List ℕ)) (r : ℕ) (o : JsObjRef)
    (hr : heap.get? r = some o) (hv : o.value ≤ s.maxValue)
    (hcap : window.length < s.totalElement) :
    (addChartDataRefs s heap window [r]).2.1.get? r
      = some { value := percentPure s.minValue s.maxValue s.valueDiff o.value,
               defValue := some o.value, id := o.id } ∧
    (addChartDataRefs s heap window [r]).2.2 = window ++ [[r]] ∧
    (addChartDataRefs s heap window [r]).1 = s := by
  have hcalc := calculatePercent_noexp (fuelOf s) s o.value (Or.inl hv)
  have htr : transformArrayRefs (fuelOf s) s heap [r]
      = (s, modifyIdx heap r
          (fun oo => {oo with defValue := some oo.value, value := percentPure s.minValue s.maxValue s.valueDiff o.value}),
        [r]) := by
    show (match heap.get? r with
      | some o =>
        let c := calculatePercent (fuelOf s) s o.value
        let heap2 := modifyIdx heap r
          (fun oo => {oo with defValue := some oo.value, value := c.2})
        let rr := transformArrayRefs (fuelOf s) c.1 heap2 []
        (rr.1, rr.2.1, r :: rr.2.2)
      | none =>
        let rr := transformArrayRefs (fuelOf s) s heap []
        (rr.1, rr.2.1, r :: rr.2.2)) = _
    rw [hr]
    show (let c := calculatePercent (fuelOf s) s o.value
          let heap2 := modifyIdx heap r
            (fun oo => {oo with defValue := some oo.value, value := c.2})
          let rr := transformArrayRefs (fuelOf s) c.1 heap2 []
          (rr.1, rr.2.1, r :: rr.2.2)) = _
    rw [hcalc]
    rfl
  have hwin : ¬ s.totalElement < (window ++ [[r]]).length := by
    rw [List.length_append]
    simp only [List.length_cons, List.length_nil]
    omega
  refine ⟨?_, ?_, ?_⟩
  · show (addChartDataRefs s heap window [r]).2.1.get? r = _
    unfold addChartDataRefs
    rw [htr]
    show (modifyIdx heap r _).get? r = _
    rw [modifyIdx_get?_self, hr]
    rfl
  · unfold addChartDataRefs
    rw [htr]
    show (if s.totalElement < (window ++ [[r]]).length then (window ++ [[r]]).drop 1
      else window ++ [[r]]) = window ++ [[r]]
    rw [if_neg hwin]
  · unfold addChartDataRefs
    rw [htr]

/-- C10 witness: a caller object holding raw 200 under the default range
250..500; after the call the same heap slot holds value 1 (the percent of the
clamped raw) and defValue 200 — the raw value is no longer under value. -/
theorem object_samples_mutated_in_place_witness :
    let s : ChartState :=
      { minValue := 250, maxValue := 500, valueDiff := 250,
        calcMaxValue := false, totalElement := 50, data := [] }
    let heap : List JsObjRef := [{ value := 200, defValue := none, id := none }]
    ((addChartDataRefs s heap [] [0]).2.1.get? 0
      = some { value := percentPure s.minValue s.maxValue s.valueDiff 200,
               defValue := some 200, id := none } ∧
     (addChartDataRefs s heap [] [0]).2.2 = [] ++ [[0]] ∧
     (addChartDataRefs s heap [] [0]).1 = s) ∧
    percentPure 250 500 250 200 = 1 ∧ (1 : ℚ) ≠ 200 := by
  refine ⟨object_samples_mutated_in_place _ _ _ 0
    { value := 200, defValue := none, id := none } rfl (by norm_num) (by norm_num), ?_, by norm_num⟩
  show percentFormula 250 250 (clampRange 250 500 200) = 1
  rw [show clampRange 250 500 200 = 250 by
    unfold clampRange
    rw [if_pos (by norm_num : (200:ℚ) < 250)]]
  unfold percentFormula
  rw [show ((250:ℚ) - 250) / 250 * 100 = 0 by norm_num]
  rw [show jsRound 0 = 0 from jsRound_eq (by norm_num) (by norm_num)]
  rfl
